import Mathlib

/-!
Verification development for the LaterLink single-page app (src/app.js).

The file shallowly embeds the pieces of the program the specification talks
about: the YouTube video-ID extractor (a JavaScript regular expression,
embedded here with its exact matching semantics), and the three event
handlers (add link, delete link, get summary) modelled as pure state
transformers that also report the store calls they issue.
-/

/-! ## Video-ID extractor (src/app.js lines 42-47)

The source is
  const getYouTubeVideoId = (url) => {
    if (!url) return null;
    const regExp = /^.*(youtu.be\/|v\/|u\/\w\/|embed\/|watch\?v=|&v=)([^#&?]*).*/ ;
    const match = url.match(regExp);
    return (match && match[2].length === 11) ? match[2] : null;
  };

JavaScript regex semantics embedded here:
- the leading greedy `.*` (which cannot cross a line terminator) selects the
  rightmost position at which one of the six alternatives matches, with no
  line terminator before it;
- the six alternatives have pairwise distinct first characters, so at a given
  position at most one of them matches;
- the unescaped `.` in `youtu.be/` matches any character except a line
  terminator;
- `\w` is `[A-Za-z0-9_]`;
- group 2, `[^#&?]*`, greedily takes every following character other than
  `#`, `&`, `?` (line terminators included, since a negated class matches
  them); the trailing `.*` can always match empty, so it never forces
  backtracking;
- the whole match need not reach the end of the string (no `$` anchor).
-/

/-- JavaScript line terminators: LF, CR, U+2028, U+2029. -/
def isLineTerm (c : Char) : Bool :=
  c == Char.ofNat 10 || c == Char.ofNat 13 ||
  c == Char.ofNat 0x2028 || c == Char.ofNat 0x2029

/-- JavaScript `\w`: ASCII letters, digits, underscore. -/
def isWordChar (c : Char) : Bool :=
  (Char.ofNat 97 ≤ c && c ≤ Char.ofNat 122) ||
  (Char.ofNat 65 ≤ c && c ≤ Char.ofNat 90) ||
  (Char.ofNat 48 ≤ c && c ≤ Char.ofNat 57) ||
  c == Char.ofNat 95

/-- Match a literal character sequence at the head of the list, returning the
remainder on success. -/
def stripLit : List Char → List Char → Option (List Char)
  | [], l => some l
  | _ :: _, [] => none
  | p :: ps, c :: cs => if c = p then stripLit ps cs else none

/-- Regex alternation: the first alternative that matches wins (here the six
alternatives are mutually exclusive anyway, having distinct first
characters). -/
def optOr (a b : Option (List Char)) : Option (List Char) :=
  match a with
  | some r => some r
  | none => b

/-- First alternative, youtu.be/ with its unescaped dot: the literal youtu,
then any character that is not a line terminator, then the literal be/. -/
def tryYoutu (l : List Char) : Option (List Char) :=
  match stripLit ('y' :: 'o' :: 'u' :: 't' :: 'u' :: []) l with
  | some (c :: rest) =>
      if isLineTerm c then none else stripLit ('b' :: 'e' :: '/' :: []) rest
  | _ => none

/-- Third alternative, u/ then a word character then /. -/
def tryU (l : List Char) : Option (List Char) :=
  match stripLit ('u' :: '/' :: []) l with
  | some (c :: rest) =>
      if isWordChar c then stripLit ('/' :: []) rest else none
  | _ => none

/-- Try to match one of the six regex alternatives at the head of the list;
on success return the remainder after the matched marker. -/
def stripMarker (l : List Char) : Option (List Char) :=
  optOr (tryYoutu l)
    (optOr (stripLit ('v' :: '/' :: []) l)
      (optOr (tryU l)
        (optOr (stripLit ('e' :: 'm' :: 'b' :: 'e' :: 'd' :: '/' :: []) l)
          (optOr (stripLit ('w' :: 'a' :: 't' :: 'c' :: 'h' :: '?' :: 'v' :: '=' :: []) l)
            (stripLit ('&' :: 'v' :: '=' :: []) l)))))

/-- Remainder after the rightmost alternative occurrence whose prefix is free
of line terminators (the position the greedy leading wildcard selects). -/
def lastMarker : List Char → Option (List Char)
  | [] => none
  | c :: cs =>
      if isLineTerm c then none
      else optOr (lastMarker cs) (stripMarker (c :: cs))

/-- Characters excluded by the capture class of group 2. -/
def isDelim (c : Char) : Bool :=
  c == '#' || c == '&' || c == '?'

/-- Embedding of getYouTubeVideoId; the input is an Option to model the
JavaScript null/undefined argument, and the empty string is falsy. -/
def getYouTubeVideoId : Option String → Option String
  | none => none
  | some u =>
      if u = "" then none
      else
        match lastMarker u.toList with
        | none => none
        | some rest =>
            if (rest.takeWhile (fun c => !isDelim c)).length = 11 then
              some (String.mk (rest.takeWhile (fun c => !isDelim c)))
            else none

/-- The six alternatives of the regex, as lists of characters: the unescaped
dot of youtu.be may be any non-line-terminator character, and the word class
of the third alternative is isWordChar. -/
inductive MarkerSpec : List Char → Prop where
  | youtuDot (c : Char) (h : isLineTerm c = false) :
      MarkerSpec ('y' :: 'o' :: 'u' :: 't' :: 'u' :: c :: 'b' :: 'e' :: '/' :: [])
  | vSlash : MarkerSpec ('v' :: '/' :: [])
  | uSlash (c : Char) (h : isWordChar c = true) :
      MarkerSpec ('u' :: '/' :: c :: '/' :: [])
  | embedSlash : MarkerSpec ('e' :: 'm' :: 'b' :: 'e' :: 'd' :: '/' :: [])
  | watchV : MarkerSpec ('w' :: 'a' :: 't' :: 'c' :: 'h' :: '?' :: 'v' :: '=' :: [])
  | ampV : MarkerSpec ('&' :: 'v' :: '=' :: [])

/-- Does the list contain the given pattern as a contiguous subsequence? -/
def containsSeq (pat : List Char) : List Char → Bool
  | [] => pat.isEmpty
  | c :: cs => pat.isPrefixOf (c :: cs) || containsSeq pat cs

/-- Necessary condition for a string to match one of the URL shapes the claim
lists (youtu.be, /v/, /u/n/, /embed/, ?v=, &v= followed by an id): the string
must at least contain the shape's marker characters contiguously. -/
def containsShapeMarker (s : String) : Bool :=
  ["youtu.be/", "/v/", "/u/", "/embed/", "?v=", "&v="].any
    (fun pat => containsSeq pat.toList s.toList)

/-! ## Application state model (src/app.js lines 50-272)

The React component state that the three handlers read and write, modelled as
a record; the JavaScript objects keyed by link id (summaries, isSummarizing)
are modelled as association lists so that key presence is observable, exactly
as it is on a JavaScript object.  The fields links, isLoading and isAuthReady
are omitted: none of the three handlers modelled here reads or writes them.
Network effects are made explicit: every handler also returns the list of
store calls it issued, and the outcome of each external call is an input. -/

/-- Assoc-list lookup: JavaScript property read, none when the key is absent. -/
def jsGet {α : Type} (m : List (String × α)) (k : String) : Option α :=
  (m.find? (fun p => p.1 == k)).map (fun p => p.2)

/-- JavaScript `delete obj[k]`: the key is removed. -/
def jsDelete {α : Type} (m : List (String × α)) (k : String) : List (String × α) :=
  m.filter (fun p => !(p.1 == k))

/-- JavaScript spread update: the key is (re)bound to the value. -/
def jsSet {α : Type} (m : List (String × α)) (k : String) (v : α) : List (String × α) :=
  (k, v) :: jsDelete m k

/-- Is the key present on the object (whatever its value)? -/
def jsHas {α : Type} (m : List (String × α)) (k : String) : Bool :=
  (m.find? (fun p => p.1 == k)).isSome

/-- The server-assigned timestamp sentinel passed as addedAt on creation. -/
inductive AddedAt where
  | serverTimestamp
  deriving DecidableEq

/-- Fields of the document created by handleAddLink (src/app.js 181-188). -/
structure NewLinkDoc where
  url : String
  title : String
  videoId : String
  addedAt : AddedAt
  userId : String
  summary : Option String
  deriving DecidableEq

/-- A store call issued by a handler, with the document path it addresses. -/
inductive StoreCall where
  | addDoc (collectionPath : String) (docFields : NewLinkDoc)
  | deleteDoc (docPath : String)
  | updateDoc (docPath : String) (summary : String)
  deriving DecidableEq

/-- Component state read and written by the modelled handlers. -/
structure AppState where
  appId : String
  db : Bool
  userId : Option String
  newLinkUrl : String
  newLinkTitle : String
  error : String
  showAddForm : Bool
  summaries : List (String × String)
  isSummarizing : List (String × Bool)
  deriving DecidableEq

/-- The collection path opened by the live subscription (src/app.js 126). -/
def subscribePath (appId uid : String) : String :=
  "artifacts/" ++ appId ++ "/users/" ++ uid ++ "/laterTubeLinks"

/-- JavaScript whitespace for String.prototype.trim: tab, LF, VT, FF, CR,
space, NBSP, BOM, every Unicode Space_Separator code point (U+1680,
U+2000-U+200A, U+202F, U+205F, U+3000), and the other line terminators. -/
def isJsWhitespace (c : Char) : Bool :=
  c == ' ' || c == Char.ofNat 9 || c == Char.ofNat 11 || c == Char.ofNat 12 ||
  c == Char.ofNat 0xA0 || c == Char.ofNat 0xFEFF ||
  c == Char.ofNat 0x1680 ||
  (Char.ofNat 0x2000 ≤ c && c ≤ Char.ofNat 0x200A) ||
  c == Char.ofNat 0x202F || c == Char.ofNat 0x205F || c == Char.ofNat 0x3000 ||
  isLineTerm c

/-- The JavaScript condition !s.trim(): s.trim() is the empty string exactly
when every character of s is whitespace. -/
def isBlankStr (s : String) : Bool :=
  s.toList.all isJsWhitespace

/-- Outcome of the awaited addDoc call. -/
inductive AddOutcome where
  | success
  | failure
  deriving DecidableEq

/-- Embedding of handleAddLink (src/app.js 159-197).  The outcome argument is
consulted only when the creation call is actually issued. -/
def handleAddLink (s : AppState) (o : AddOutcome) : AppState × List StoreCall :=
  if isBlankStr s.newLinkUrl || isBlankStr s.newLinkTitle then
    ({ s with error := "Both URL and Title are required." }, [])
  else if s.db = false ∨ s.userId = none then
    ({ s with error := "Database not ready or user not authenticated." }, [])
  else
    match getYouTubeVideoId (some s.newLinkUrl) with
    | none =>
        ({ s with error := "Invalid YouTube URL. Please enter a valid YouTube video link." }, [])
    | some vid =>
        let uid := s.userId.getD ""
        let s1 := { s with error := "" }
        let path := "artifacts/" ++ s.appId ++ "/users/" ++ uid ++ "/laterTubeLinks"
        let docFields : NewLinkDoc :=
          { url := s.newLinkUrl, title := s.newLinkTitle, videoId := vid,
            addedAt := AddedAt.serverTimestamp, userId := uid, summary := none }
        match o with
        | AddOutcome.success =>
            ({ s1 with newLinkUrl := "", newLinkTitle := "", showAddForm := false },
             [StoreCall.addDoc path docFields])
        | AddOutcome.failure =>
            ({ s1 with error := "Failed to add link. Please try again." },
             [StoreCall.addDoc path docFields])

/-- Outcome of the awaited deleteDoc call. -/
inductive DeleteOutcome where
  | success
  | failure
  deriving DecidableEq

/-- Embedding of handleDeleteLink (src/app.js 199-219).  On success the entry
for the link is deleted from the summaries object; the isSummarizing object is
not touched on any path. -/
def handleDeleteLink (s : AppState) (linkId : String) (o : DeleteOutcome) :
    AppState × List StoreCall :=
  if s.db = false ∨ s.userId = none then
    ({ s with error := "Database not ready or user not authenticated." }, [])
  else
    let uid := s.userId.getD ""
    let s1 := { s with error := "" }
    let path := "artifacts/" ++ s.appId ++ "/users/" ++ uid ++ "/laterTubeLinks/" ++ linkId
    match o with
    | DeleteOutcome.success =>
        ({ s1 with summaries := jsDelete s1.summaries linkId },
         [StoreCall.deleteDoc path])
    | DeleteOutcome.failure =>
        ({ s1 with error := "Failed to delete link. Please try again." },
         [StoreCall.deleteDoc path])

/-! ## Summary generation (src/app.js 222-272) -/

/-- One part of a candidate's content in the generation response. -/
structure GenPart where
  text : String
  deriving DecidableEq

/-- Content of a candidate; the parts field may be absent. -/
structure GenContent where
  parts : Option (List GenPart)
  deriving DecidableEq

/-- One response candidate; the content field may be absent. -/
structure GenCandidate where
  content : Option GenContent
  deriving DecidableEq

/-- A parsed success-response body; the candidates field may be absent. -/
structure GenResult where
  candidates : Option (List GenCandidate)
  deriving DecidableEq

/-- The truthiness chain of src/app.js 252-254 together with the extraction of
candidates[0].content.parts[0].text: some text exactly when the chain holds. -/
def firstText (r : GenResult) : Option String :=
  match r.candidates with
  | some (c :: _) =>
      match c.content with
      | some ct =>
          match ct.parts with
          | some (p :: _) => some p.text
          | _ => none
      | none => none
  | _ => none

/-- Outcome of the awaited updateDoc persistence call; a failure carries the
thrown error's message (none models a falsy message). -/
inductive PersistOutcome where
  | success
  | failure (message : Option String)
  deriving DecidableEq

/-- How the fetch of the generation endpoint settles: a non-ok HTTP response
(with its status and the optional message of the error body), a rejection of
fetch or of body parsing (with the thrown error's optional message), or an ok
response carrying the parsed body and the outcome of the later persistence. -/
inductive FetchOutcome where
  | httpError (status : Nat) (errMessage : Option String)
  | networkError (message : Option String)
  | ok (result : GenResult) (persist : PersistOutcome)
  deriving DecidableEq

/-- JavaScript fallback `m || alt` on an optional message. -/
def msgOr (m : Option String) (alt : String) : String :=
  match m with
  | some t => if t = "" then alt else t
  | none => alt

/-- The synchronous prefix of handleGetSummary after its guard (src/app.js
227-228): the per-link flag is raised and the placeholder text installed
before the request is issued. -/
def summarizeStart (s : AppState) (linkId : String) : AppState :=
  { s with isSummarizing := jsSet s.isSummarizing linkId true,
           summaries := jsSet s.summaries linkId "✨ Generating summary..." }

/-- The rest of handleGetSummary from the fetch onward (src/app.js 237-271),
applied to the state left by summarizeStart.  The catch block receives both
HTTP errors (rethrown at line 247 with a composed message) and persistence
errors; the finally block clears the flag on every path. -/
def summarizeFinish (s : AppState) (linkId uid : String) (o : FetchOutcome) :
    AppState × List StoreCall :=
  match o with
  | FetchOutcome.httpError status errMessage =>
      let thrown := "API request failed with status " ++ toString status ++ ": " ++
        msgOr errMessage "Unknown error"
      ({ s with summaries := jsSet s.summaries linkId ("Error: " ++ thrown),
                isSummarizing := jsSet s.isSummarizing linkId false }, [])
  | FetchOutcome.networkError message =>
      let emsg := "Error: " ++ msgOr message "Failed to get summary."
      ({ s with summaries := jsSet s.summaries linkId emsg,
                isSummarizing := jsSet s.isSummarizing linkId false }, [])
  | FetchOutcome.ok result persist =>
      match firstText result with
      | some textSummary =>
          let s1 := { s with summaries := jsSet s.summaries linkId textSummary }
          let path := "artifacts/" ++ s.appId ++ "/users/" ++ uid ++
            "/laterTubeLinks/" ++ linkId
          match persist with
          | PersistOutcome.success =>
              ({ s1 with isSummarizing := jsSet s1.isSummarizing linkId false },
               [StoreCall.updateDoc path textSummary])
          | PersistOutcome.failure message =>
              let emsg := "Error: " ++ msgOr message "Failed to get summary."
              ({ s1 with summaries := jsSet s1.summaries linkId emsg,
                         isSummarizing := jsSet s1.isSummarizing linkId false },
               [StoreCall.updateDoc path textSummary])
      | none =>
          let fixedMsg := "Could not generate summary (unexpected response)."
          ({ s with summaries := jsSet s.summaries linkId fixedMsg,
                    isSummarizing := jsSet s.isSummarizing linkId false }, [])

/-- Embedding of handleGetSummary (src/app.js 222-272).  The title and URL
arguments of the source only feed the prompt text, which no modelled
observation depends on, so they are not taken here. -/
def handleGetSummary (s : AppState) (linkId : String) (o : FetchOutcome) :
    AppState × List StoreCall :=
  if s.db = false ∨ s.userId = none then
    ({ s with error := "Database not ready or user not authenticated for summary." }, [])
  else
    summarizeFinish (summarizeStart s linkId) linkId (s.userId.getD "") o

/-- JavaScript String.startsWith, on the character lists. -/
def startsWithStr (s pre : String) : Bool :=
  pre.toList.isPrefixOf s.toList

/-- The label of the per-link summarize trigger (src/app.js 438), as a function
of the isSummarizing entry and the summaries entry for the link; a missing
entry and the empty string are both falsy. -/
def summButtonLabel (flag : Option Bool) (summary : Option String) : String :=
  if flag.getD false then "Getting Summary..."
  else if (match summary with
           | some t => t ≠ "" && t ≠ "✨ Generating summary..." &&
               !(startsWithStr t "Error:")
           | none => false) then "Regenerate Summary"
  else "Get Summary"

/-- A ready session state with given form fields and per-link objects, used to
instantiate the handler theorems on concrete inputs. -/
def mkState (url title : String) (sums : List (String × String))
    (flags : List (String × Bool)) : AppState :=
  { appId := "app", db := true, userId := some "u1", newLinkUrl := url,
    newLinkTitle := title, error := "", showAddForm := true,
    summaries := sums, isSummarizing := flags }

/-! ## Lemmas and claim theorems -/

example : getYouTubeVideoId (some "https://www.youtube.com/watch?v=dQw4w9WgXcQ") =
    some "dQw4w9WgXcQ" := by decide

example : getYouTubeVideoId (some "https://youtu.be/dQw4w9WgXcQ?t=5") =
    some "dQw4w9WgXcQ" := by decide

example : getYouTubeVideoId (some "https://example.com/video") = none := by decide

example : getYouTubeVideoId (some "") = none := rfl

example : getYouTubeVideoId none = none := rfl

example : isBlankStr "\u2000" = true := by decide

example : isBlankStr " \t\u3000" = true := by decide

example : isBlankStr "T" = false := by decide

theorem markerSpec_ne_nil {m : List Char} (h : MarkerSpec m) : m ≠ [] := by
  cases h <;> simp

theorem markerSpec_head {c : Char} {t : List Char} (h : MarkerSpec (c :: t)) :
    isLineTerm c = false := by
  cases h <;> first | assumption | decide

/-- Markers starting at the same position agree, and so do the remainders:
the six alternatives have pairwise distinct first characters and fixed
lengths per head character. -/
theorem markerSpec_append_inj {m1 m2 t1 t2 : List Char} (h1 : MarkerSpec m1)
    (h2 : MarkerSpec m2) (h : m1 ++ t1 = m2 ++ t2) : m1 = m2 ∧ t1 = t2 := by
  cases h1 <;> cases h2 <;> simp_all

theorem stripLit_eq_some_iff {pat l r : List Char} :
    stripLit pat l = some r ↔ l = pat ++ r := by
  induction pat generalizing l with
  | nil => simp [stripLit]
  | cons p ps ih =>
    cases l with
    | nil => simp [stripLit]
    | cons c cs =>
      by_cases h : c = p
      · subst h
        simp [stripLit, ih]
      · simp [stripLit, h]

theorem optOr_eq_some_iff {a b : Option (List Char)} {r : List Char} :
    optOr a b = some r ↔ a = some r ∨ (a = none ∧ b = some r) := by
  cases a <;> simp [optOr]

theorem tryYoutu_eq_some_iff {l r : List Char} :
    tryYoutu l = some r ↔
      ∃ c, isLineTerm c = false ∧
        l = 'y' :: 'o' :: 'u' :: 't' :: 'u' :: c :: 'b' :: 'e' :: '/' :: r := by
  constructor
  · intro h
    unfold tryYoutu at h
    split at h
    · next c rest hs =>
      split at h
      · exact absurd h (by simp)
      · next hc =>
        have h1 := stripLit_eq_some_iff.mp hs
        have h2 := stripLit_eq_some_iff.mp h
        subst h2
        refine ⟨c, by simpa using hc, by simpa using h1⟩
    · exact absurd h (by simp)
  · rintro ⟨c, hc, rfl⟩
    have h1 : stripLit ('y' :: 'o' :: 'u' :: 't' :: 'u' :: [])
        ('y' :: 'o' :: 'u' :: 't' :: 'u' :: c :: 'b' :: 'e' :: '/' :: r) =
        some (c :: 'b' :: 'e' :: '/' :: r) := stripLit_eq_some_iff.mpr rfl
    have h2 : stripLit ('b' :: 'e' :: '/' :: []) ('b' :: 'e' :: '/' :: r) = some r :=
      stripLit_eq_some_iff.mpr rfl
    simp [tryYoutu, h1, hc, h2]

theorem tryU_eq_some_iff {l r : List Char} :
    tryU l = some r ↔
      ∃ c, isWordChar c = true ∧ l = 'u' :: '/' :: c :: '/' :: r := by
  constructor
  · intro h
    unfold tryU at h
    split at h
    · next c rest hs =>
      split at h
      · next hc =>
        have h1 := stripLit_eq_some_iff.mp hs
        have h2 := stripLit_eq_some_iff.mp h
        subst h2
        refine ⟨c, hc, by simpa using h1⟩
      · exact absurd h (by simp)
    · exact absurd h (by simp)
  · rintro ⟨c, hc, rfl⟩
    have h1 : stripLit ('u' :: '/' :: []) ('u' :: '/' :: c :: '/' :: r) =
        some (c :: '/' :: r) := stripLit_eq_some_iff.mpr rfl
    have h2 : stripLit ('/' :: []) ('/' :: r) = some r := stripLit_eq_some_iff.mpr rfl
    simp [tryU, h1, hc, h2]

/-- stripMarker succeeds exactly on lists beginning with one of the six
alternatives, returning the remainder after it. -/
theorem stripMarker_eq_some_iff {l r : List Char} :
    stripMarker l = some r ↔ ∃ m, MarkerSpec m ∧ l = m ++ r := by
  constructor
  · intro h
    unfold stripMarker at h
    rcases optOr_eq_some_iff.mp h with h | ⟨-, h⟩
    · obtain ⟨c, hc, rfl⟩ := tryYoutu_eq_some_iff.mp h
      exact ⟨_, MarkerSpec.youtuDot c hc, rfl⟩
    rcases optOr_eq_some_iff.mp h with h | ⟨-, h⟩
    · exact ⟨_, MarkerSpec.vSlash, by simpa using stripLit_eq_some_iff.mp h⟩
    rcases optOr_eq_some_iff.mp h with h | ⟨-, h⟩
    · obtain ⟨c, hc, rfl⟩ := tryU_eq_some_iff.mp h
      exact ⟨_, MarkerSpec.uSlash c hc, rfl⟩
    rcases optOr_eq_some_iff.mp h with h | ⟨-, h⟩
    · exact ⟨_, MarkerSpec.embedSlash, by simpa using stripLit_eq_some_iff.mp h⟩
    rcases optOr_eq_some_iff.mp h with h | ⟨-, h⟩
    · exact ⟨_, MarkerSpec.watchV, by simpa using stripLit_eq_some_iff.mp h⟩
    · exact ⟨_, MarkerSpec.ampV, by simpa using stripLit_eq_some_iff.mp h⟩
  · rintro ⟨m, hm, rfl⟩
    unfold stripMarker
    cases hm with
    | youtuDot c hc =>
        have h1 : tryYoutu ('y' :: 'o' :: 'u' :: 't' :: 'u' :: c :: 'b' :: 'e' :: '/' :: r) =
            some r := tryYoutu_eq_some_iff.mpr ⟨c, hc, rfl⟩
        simp [optOr, h1]
    | vSlash =>
        have h0 : tryYoutu ('v' :: '/' :: r) = none := rfl
        have h1 : stripLit ('v' :: '/' :: []) ('v' :: '/' :: r) = some r :=
          stripLit_eq_some_iff.mpr rfl
        simp [optOr, h0, h1]
    | uSlash c hc =>
        have h0 : tryYoutu ('u' :: '/' :: c :: '/' :: r) = none := rfl
        have h1 : stripLit ('v' :: '/' :: []) ('u' :: '/' :: c :: '/' :: r) = none := rfl
        have h2 : tryU ('u' :: '/' :: c :: '/' :: r) = some r :=
          tryU_eq_some_iff.mpr ⟨c, hc, rfl⟩
        simp [optOr, h0, h1, h2]
    | embedSlash =>
        have h0 : tryYoutu ('e' :: 'm' :: 'b' :: 'e' :: 'd' :: '/' :: r) = none := rfl
        have h1 : stripLit ('v' :: '/' :: []) ('e' :: 'm' :: 'b' :: 'e' :: 'd' :: '/' :: r) =
            none := rfl
        have h2 : tryU ('e' :: 'm' :: 'b' :: 'e' :: 'd' :: '/' :: r) = none := rfl
        have h3 : stripLit ('e' :: 'm' :: 'b' :: 'e' :: 'd' :: '/' :: [])
            ('e' :: 'm' :: 'b' :: 'e' :: 'd' :: '/' :: r) = some r :=
          stripLit_eq_some_iff.mpr rfl
        simp [optOr, h0, h1, h2, h3]
    | watchV =>
        have h0 : tryYoutu ('w' :: 'a' :: 't' :: 'c' :: 'h' :: '?' :: 'v' :: '=' :: r) =
            none := rfl
        have h1 : stripLit ('v' :: '/' :: [])
            ('w' :: 'a' :: 't' :: 'c' :: 'h' :: '?' :: 'v' :: '=' :: r) = none := rfl
        have h2 : tryU ('w' :: 'a' :: 't' :: 'c' :: 'h' :: '?' :: 'v' :: '=' :: r) =
            none := rfl
        have h3 : stripLit ('e' :: 'm' :: 'b' :: 'e' :: 'd' :: '/' :: [])
            ('w' :: 'a' :: 't' :: 'c' :: 'h' :: '?' :: 'v' :: '=' :: r) = none := rfl
        have h4 : stripLit ('w' :: 'a' :: 't' :: 'c' :: 'h' :: '?' :: 'v' :: '=' :: [])
            ('w' :: 'a' :: 't' :: 'c' :: 'h' :: '?' :: 'v' :: '=' :: r) = some r :=
          stripLit_eq_some_iff.mpr rfl
        simp [optOr, h0, h1, h2, h3, h4]
    | ampV =>
        have h0 : tryYoutu ('&' :: 'v' :: '=' :: r) = none := rfl
        have h1 : stripLit ('v' :: '/' :: []) ('&' :: 'v' :: '=' :: r) = none := rfl
        have h2 : tryU ('&' :: 'v' :: '=' :: r) = none := rfl
        have h3 : stripLit ('e' :: 'm' :: 'b' :: 'e' :: 'd' :: '/' :: [])
            ('&' :: 'v' :: '=' :: r) = none := rfl
        have h4 : stripLit ('w' :: 'a' :: 't' :: 'c' :: 'h' :: '?' :: 'v' :: '=' :: [])
            ('&' :: 'v' :: '=' :: r) = none := rfl
        have h5 : stripLit ('&' :: 'v' :: '=' :: []) ('&' :: 'v' :: '=' :: r) = some r :=
          stripLit_eq_some_iff.mpr rfl
        simp [optOr, h0, h1, h2, h3, h4, h5]

/-- lastMarker fails exactly when no alternative occurs at any position whose
prefix is free of line terminators. -/
theorem lastMarker_eq_none_iff {l : List Char} :
    lastMarker l = none ↔
      ¬ ∃ pre m r, l = pre ++ m ++ r ∧ MarkerSpec m ∧
        ∀ c ∈ pre, isLineTerm c = false := by
  induction l with
  | nil =>
    constructor
    · rintro - ⟨pre, m, r, h, hm, -⟩
      obtain ⟨h1, -⟩ := List.append_eq_nil.mp h.symm
      obtain ⟨-, h2⟩ := List.append_eq_nil.mp h1
      exact markerSpec_ne_nil hm h2
    · intro _
      rfl
  | cons c cs ih =>
    by_cases hc : isLineTerm c = true
    · constructor
      · rintro - ⟨pre, m, r, h, hm, hpre⟩
        cases pre with
        | nil =>
          rw [List.nil_append] at h
          cases m with
          | nil => exact markerSpec_ne_nil hm rfl
          | cons d t =>
            rw [List.cons_append] at h
            injection h with h1 h2
            rw [h1, markerSpec_head hm] at hc
            exact Bool.false_ne_true hc
        | cons d pre2 =>
          rw [List.cons_append, List.cons_append] at h
          injection h with h1 h2
          have hd := hpre d (List.mem_cons_self d pre2)
          rw [h1, hd] at hc
          exact Bool.false_ne_true hc
      · intro _
        simp [lastMarker, hc]
    · rw [Bool.not_eq_true] at hc
      have hstep : lastMarker (c :: cs) = optOr (lastMarker cs) (stripMarker (c :: cs)) := by
        simp [lastMarker, hc]
      rw [hstep]
      constructor
      · intro h
        have ha : lastMarker cs = none := by
          cases hcs : lastMarker cs with
          | none => rfl
          | some r =>
            rw [hcs] at h
            exact absurd h (by simp [optOr])
        have hb : stripMarker (c :: cs) = none := by
          rw [ha] at h
          simpa [optOr] using h
        rintro ⟨pre, m, r, hdec, hm, hpre⟩
        cases pre with
        | nil =>
          rw [List.nil_append] at hdec
          have hs : stripMarker (c :: cs) = some r := stripMarker_eq_some_iff.mpr ⟨m, hm, hdec⟩
          rw [hs] at hb
          exact absurd hb (by simp)
        | cons d pre2 =>
          rw [List.cons_append, List.cons_append] at hdec
          injection hdec with h1 h2
          exact (ih.mp ha) ⟨pre2, m, r, h2, hm, fun x hx => hpre x (List.mem_cons_of_mem d hx)⟩
      · intro hno
        have ha : lastMarker cs = none := by
          apply ih.mpr
          rintro ⟨pre, m, r, hdec, hm, hpre⟩
          refine hno ⟨c :: pre, m, r, ?_, hm, ?_⟩
          · simp [hdec]
          · intro x hx
            rcases List.mem_cons.mp hx with rfl | hx
            · exact hc
            · exact hpre x hx
        have hb : stripMarker (c :: cs) = none := by
          cases hsc : stripMarker (c :: cs) with
          | none => rfl
          | some r =>
            obtain ⟨m, hm, hdec⟩ := stripMarker_eq_some_iff.mp hsc
            exact absurd ⟨[], m, r, by simpa using hdec, hm, by simp⟩ hno
        rw [ha, hb]
        rfl

/-- lastMarker returns the remainder after the rightmost alternative occurrence
reachable without crossing a line terminator. -/
theorem lastMarker_eq_some_iff {l r : List Char} :
    lastMarker l = some r ↔
      ∃ pre m, l = pre ++ m ++ r ∧ MarkerSpec m ∧ (∀ c ∈ pre, isLineTerm c = false) ∧
        ∀ pre2 m2 r2, l = pre2 ++ m2 ++ r2 → MarkerSpec m2 →
          (∀ c ∈ pre2, isLineTerm c = false) → pre2.length ≤ pre.length := by
  induction l generalizing r with
  | nil =>
    constructor
    · intro h
      exact absurd h (by simp [lastMarker])
    · rintro ⟨pre, m, hdec, hm, -, -⟩
      obtain ⟨h1, -⟩ := List.append_eq_nil.mp hdec.symm
      obtain ⟨-, h2⟩ := List.append_eq_nil.mp h1
      exact absurd h2 (markerSpec_ne_nil hm)
  | cons c cs ih =>
    by_cases hc : isLineTerm c = true
    · constructor
      · intro h
        exact absurd h (by simp [lastMarker, hc])
      · rintro ⟨pre, m, hdec, hm, hpre, -⟩
        exfalso
        cases pre with
        | nil =>
          rw [List.nil_append] at hdec
          cases m with
          | nil => exact markerSpec_ne_nil hm rfl
          | cons d t =>
            rw [List.cons_append] at hdec
            injection hdec with h1 h2
            rw [h1, markerSpec_head hm] at hc
            exact Bool.false_ne_true hc
        | cons d pre2 =>
          rw [List.cons_append, List.cons_append] at hdec
          injection hdec with h1 h2
          have hd := hpre d (List.mem_cons_self d pre2)
          rw [h1, hd] at hc
          exact Bool.false_ne_true hc
    · rw [Bool.not_eq_true] at hc
      have hstep : lastMarker (c :: cs) = optOr (lastMarker cs) (stripMarker (c :: cs)) := by
        simp [lastMarker, hc]
      rw [hstep]
      cases hcs : lastMarker cs with
      | some r0 =>
        obtain ⟨pre0, m0, hdec0, hm0, hpre0, hmax0⟩ := (ih (r := r0)).mp hcs
        constructor
        · intro h
          have hr : r0 = r := by simpa [optOr] using h
          subst hr
          refine ⟨c :: pre0, m0, by simp [hdec0], hm0, ?_, ?_⟩
          · intro x hx
            rcases List.mem_cons.mp hx with rfl | hx
            · exact hc
            · exact hpre0 x hx
          · intro pre2 m2 r2 hdec2 hm2 hpre2
            cases pre2 with
            | nil => simp
            | cons d pre3 =>
              rw [List.cons_append, List.cons_append] at hdec2
              injection hdec2 with h1 h2
              have h3 := hmax0 pre3 m2 r2 h2 hm2 (fun x hx => hpre2 x (List.mem_cons_of_mem d hx))
              simp only [List.length_cons]
              omega
        · rintro ⟨pre, m, hdec, hm, hpre, hmax⟩
          have hup : (c :: pre0).length ≤ pre.length := by
            apply hmax (c :: pre0) m0 r0 (by simp [hdec0]) hm0
            intro x hx
            rcases List.mem_cons.mp hx with rfl | hx
            · exact hc
            · exact hpre0 x hx
          cases pre with
          | nil =>
            simp at hup
          | cons d pre1 =>
            rw [List.cons_append, List.cons_append] at hdec
            injection hdec with h1 h2
            have hdown : pre1.length ≤ pre0.length :=
              hmax0 pre1 m r h2 hm (fun x hx => hpre x (List.mem_cons_of_mem d hx))
            have hup2 : pre0.length ≤ pre1.length := by
              simp only [List.length_cons] at hup
              omega
            have hlen : pre1.length = pre0.length := Nat.le_antisymm hdown hup2
            have hcseq : pre1 ++ (m ++ r) = pre0 ++ (m0 ++ r0) := by
              rw [← List.append_assoc, ← List.append_assoc, ← h2, ← hdec0]
            obtain ⟨-, hmr⟩ := List.append_inj hcseq hlen
            obtain ⟨-, hr⟩ := markerSpec_append_inj hm hm0 hmr
            simp [optOr, hr]
      | none =>
        constructor
        · intro h
          have hb : stripMarker (c :: cs) = some r := by simpa [optOr] using h
          obtain ⟨m, hm, hdec⟩ := stripMarker_eq_some_iff.mp hb
          refine ⟨[], m, by simpa using hdec, hm, by simp, ?_⟩
          intro pre2 m2 r2 hdec2 hm2 hpre2
          cases pre2 with
          | nil => simp
          | cons d pre3 =>
            exfalso
            rw [List.cons_append, List.cons_append] at hdec2
            injection hdec2 with h1 h2
            exact (lastMarker_eq_none_iff.mp hcs)
              ⟨pre3, m2, r2, h2, hm2, fun x hx => hpre2 x (List.mem_cons_of_mem d hx)⟩
        · rintro ⟨pre, m, hdec, hm, hpre, -⟩
          cases pre with
          | nil =>
            rw [List.nil_append] at hdec
            have hs : stripMarker (c :: cs) = some r := stripMarker_eq_some_iff.mpr ⟨m, hm, hdec⟩
            simp [optOr, hs]
          | cons d pre1 =>
            exfalso
            rw [List.cons_append, List.cons_append] at hdec
            injection hdec with h1 h2
            exact (lastMarker_eq_none_iff.mp hcs)
              ⟨pre1, m, r, h2, hm, fun x hx => hpre x (List.mem_cons_of_mem d hx)⟩

theorem jsGet_jsSet_self {α : Type} (m : List (String × α)) (k : String) (v : α) :
    jsGet (jsSet m k v) k = some v := by
  simp [jsGet, jsSet, List.find?]

theorem jsGet_jsDelete_self {α : Type} (m : List (String × α)) (k : String) :
    jsGet (jsDelete m k) k = none := by
  simp [jsGet, jsDelete, List.find?_filter]


/-- C1: counterexample to the claim that the extractor returns the id exactly
for inputs matching one of the listed URL shapes and null for all others.
First conjunct: the string av/dQw4w9WgXcQ contains none of the listed shape
markers (so under the claim the extractor must return null), yet the code
returns dQw4w9WgXcQ, because the regex alternative v/ does not require the
leading slash of the claimed shape /v/.  Second conjunct: a?v=dQw4w9WgXcQ
decomposes as prefix a, shape marker ?v= and a segment of exactly eleven
characters (so under the claim the extractor must return dQw4w9WgXcQ), yet
the code returns null, because its alternative is watch?v=, not bare ?v=. -/
theorem C1_counterexample :
    (containsShapeMarker "av/dQw4w9WgXcQ" = false ∧
      getYouTubeVideoId (some "av/dQw4w9WgXcQ") = some "dQw4w9WgXcQ") ∧
    ("a?v=dQw4w9WgXcQ" = "a" ++ "?v=" ++ "dQw4w9WgXcQ" ∧
      ("dQw4w9WgXcQ" : String).length = 11 ∧
      getYouTubeVideoId (some "a?v=dQw4w9WgXcQ") = none) := by
  exact ⟨⟨by decide, by decide⟩, by decide, by decide, by decide⟩

/-- C1 (amended): for null and empty inputs the extractor returns null, and
for every other string it returns exactly the run of non-delimiter characters
(delimiters being the hash, ampersand and question mark) that follows the
rightmost occurrence of one of the regex alternatives youtu(any)be/, v/,
u/(word)/, embed/, watch?v=, &v= reachable without crossing a line
terminator, whenever that run has exactly eleven characters, and null in
every other case. -/
theorem C1_extractor_amended :
    getYouTubeVideoId none = none ∧
    getYouTubeVideoId (some "") = none ∧
    ∀ (s v : String),
      getYouTubeVideoId (some s) = some v ↔
        ∃ pre m rest, s.toList = pre ++ m ++ rest ∧ MarkerSpec m ∧
          (∀ c ∈ pre, isLineTerm c = false) ∧
          (∀ pre2 m2 r2, s.toList = pre2 ++ m2 ++ r2 → MarkerSpec m2 →
            (∀ c ∈ pre2, isLineTerm c = false) → pre2.length ≤ pre.length) ∧
          v = String.mk (rest.takeWhile (fun c => !isDelim c)) ∧
          v.length = 11 := by
  refine ⟨rfl, rfl, ?_⟩
  intro s v
  by_cases hs : s = ""
  · subst hs
    constructor
    · intro h
      exact absurd h (by simp [getYouTubeVideoId])
    · rintro ⟨pre, m, rest, hdec, hm, -, -, -, -⟩
      have hnil : String.toList "" = [] := rfl
      rw [hnil] at hdec
      obtain ⟨h1, -⟩ := List.append_eq_nil.mp hdec.symm
      obtain ⟨-, h2⟩ := List.append_eq_nil.mp h1
      exact absurd h2 (markerSpec_ne_nil hm)
  · cases hlm : lastMarker s.toList with
    | none =>
      have hlm2 : lastMarker s.data = none := hlm
      have hval : getYouTubeVideoId (some s) = none := by
        simp [getYouTubeVideoId, hs, hlm2]
      rw [hval]
      constructor
      · intro h
        exact absurd h (by simp)
      · rintro ⟨pre, m, rest, hdec, hm, hpre, -, -, -⟩
        exact absurd ⟨pre, m, rest, hdec, hm, hpre⟩ (lastMarker_eq_none_iff.mp hlm)
    | some rest0 =>
      have hlm2 : lastMarker s.data = some rest0 := hlm
      have hval : getYouTubeVideoId (some s) =
          (if (rest0.takeWhile (fun c => !isDelim c)).length = 11 then
            some (String.mk (rest0.takeWhile (fun c => !isDelim c)))
          else none) := by
        simp [getYouTubeVideoId, hs, hlm2]
      rw [hval]
      constructor
      · intro h
        by_cases hlen : (rest0.takeWhile (fun c => !isDelim c)).length = 11
        · rw [if_pos hlen] at h
          injection h with hv
          obtain ⟨pre, m, hdec, hm, hpre, hmax⟩ := lastMarker_eq_some_iff.mp hlm
          refine ⟨pre, m, rest0, hdec, hm, hpre, hmax, hv.symm, ?_⟩
          rw [← hv]
          have hml : (String.mk (rest0.takeWhile (fun c => !isDelim c))).length =
              (rest0.takeWhile (fun c => !isDelim c)).length := rfl
          rw [hml]
          exact hlen
        · rw [if_neg hlen] at h
          exact absurd h (by simp)
      · rintro ⟨pre, m, rest, hdec, hm, hpre, hmax, hv, hlen⟩
        have h1 : lastMarker s.toList = some rest :=
          lastMarker_eq_some_iff.mpr ⟨pre, m, hdec, hm, hpre, hmax⟩
        rw [hlm] at h1
        injection h1 with h1
        subst h1
        have hlen2 : (rest0.takeWhile (fun c => !isDelim c)).length = 11 := by
          have hml : (String.mk (rest0.takeWhile (fun c => !isDelim c))).length =
              (rest0.takeWhile (fun c => !isDelim c)).length := rfl
          rw [hv, hml] at hlen
          exact hlen
        rw [if_pos hlen2, hv]

/-- C1 (witness): instantiating the amended characterization on a concrete
URL, the run after the rightmost marker is the id, of length eleven. -/
theorem C1_extractor_amended_witness :
    ∃ pre m rest,
      (String.toList "https://youtu.be/dQw4w9WgXcQ") = pre ++ m ++ rest ∧
      MarkerSpec m ∧
      (∀ c ∈ pre, isLineTerm c = false) ∧
      (∀ pre2 m2 r2, (String.toList "https://youtu.be/dQw4w9WgXcQ") = pre2 ++ m2 ++ r2 →
        MarkerSpec m2 → (∀ c ∈ pre2, isLineTerm c = false) → pre2.length ≤ pre.length) ∧
      ("dQw4w9WgXcQ" : String) = String.mk (rest.takeWhile (fun c => !isDelim c)) ∧
      ("dQw4w9WgXcQ" : String).length = 11 :=
  (C1_extractor_amended.2.2 "https://youtu.be/dQw4w9WgXcQ" "dQw4w9WgXcQ").mp (by decide)

theorem startsWithStr_error (m : String) :
    startsWithStr ("Error: " ++ m) "Error:" = true := by
  unfold startsWithStr
  have h : ("Error: " ++ m).toList = "Error: ".toList ++ m.toList := by
    simp [String.toList]
  rw [h]
  rfl

/-- The document path built by the delete and update handlers is the
subscription's collection path followed by a slash and the document id. -/
theorem docPath_eq (a u k : String) :
    "artifacts/" ++ a ++ "/users/" ++ u ++ "/laterTubeLinks/" ++ k =
      subscribePath a u ++ "/" ++ k := by
  unfold subscribePath
  have hlit : ("/laterTubeLinks/" : String) = "/laterTubeLinks" ++ "/" := by decide
  rw [hlit]
  simp [String.append_assoc]

/-- C2: on a success response whose payload is well formed, with first text
part t, the summary displayed for the link is t and the persistence call
issued is an update of the link document with summary t. -/
theorem C2_summary_success (s : AppState) (uid linkId t : String)
    (ps : List GenPart) (cs : List GenCandidate)
    (hdb : s.db = true) (huid : s.userId = some uid) :
    jsGet (handleGetSummary s linkId (FetchOutcome.ok
        ⟨some (⟨some ⟨some (⟨t⟩ :: ps)⟩⟩ :: cs)⟩ PersistOutcome.success)).1.summaries linkId
      = some t ∧
    (handleGetSummary s linkId (FetchOutcome.ok
        ⟨some (⟨some ⟨some (⟨t⟩ :: ps)⟩⟩ :: cs)⟩ PersistOutcome.success)).2
      = [StoreCall.updateDoc ("artifacts/" ++ s.appId ++ "/users/" ++ uid ++
          "/laterTubeLinks/" ++ linkId) t] := by
  have hg : ¬(s.db = false ∨ s.userId = none) := by simp [hdb, huid]
  unfold handleGetSummary
  rw [if_neg hg]
  simp [summarizeFinish, summarizeStart, firstText, huid, jsGet_jsSet_self]

/-- C2 (witness). -/
theorem C2_summary_success_witness :
    jsGet (handleGetSummary (mkState "" "" [] []) "L1" (FetchOutcome.ok
        ⟨some [⟨some ⟨some [⟨"S"⟩]⟩⟩]⟩ PersistOutcome.success)).1.summaries "L1"
      = some "S" ∧
    (handleGetSummary (mkState "" "" [] []) "L1" (FetchOutcome.ok
        ⟨some [⟨some ⟨some [⟨"S"⟩]⟩⟩]⟩ PersistOutcome.success)).2
      = [StoreCall.updateDoc ("artifacts/" ++ "app" ++ "/users/" ++ "u1" ++
          "/laterTubeLinks/" ++ "L1") "S"] :=
  C2_summary_success (mkState "" "" [] []) "u1" "L1" "S" [] [] rfl rfl

/-- C3: for a ready session the per-link summarizing flag is true right after
the synchronous prefix of the trigger, and false after the request settles,
whatever the outcome (HTTP failure, network failure, malformed payload, or
success with either persistence outcome). -/
theorem C3_summarizing_flag (s : AppState) (uid linkId : String) (o : FetchOutcome)
    (hdb : s.db = true) (huid : s.userId = some uid) :
    jsGet (summarizeStart s linkId).isSummarizing linkId = some true ∧
    jsGet (handleGetSummary s linkId o).1.isSummarizing linkId = some false := by
  have hg : ¬(s.db = false ∨ s.userId = none) := by simp [hdb, huid]
  constructor
  · simp [summarizeStart, jsGet_jsSet_self]
  · unfold handleGetSummary
    rw [if_neg hg]
    cases o with
    | httpError status em => simp [summarizeFinish, summarizeStart, jsGet_jsSet_self]
    | networkError em => simp [summarizeFinish, summarizeStart, jsGet_jsSet_self]
    | ok r p =>
      cases hf : firstText r with
      | none => simp [summarizeFinish, summarizeStart, hf, jsGet_jsSet_self]
      | some t3 =>
        cases p with
        | success => simp [summarizeFinish, summarizeStart, hf, jsGet_jsSet_self]
        | failure em => simp [summarizeFinish, summarizeStart, hf, jsGet_jsSet_self]

/-- C3 (witness). -/
theorem C3_summarizing_flag_witness :
    jsGet (summarizeStart (mkState "" "" [] []) "L2").isSummarizing "L2" = some true ∧
    jsGet (handleGetSummary (mkState "" "" [] [])
        "L2" (FetchOutcome.httpError 500 none)).1.isSummarizing "L2" = some false :=
  C3_summarizing_flag (mkState "" "" [] []) "u1" "L2" (FetchOutcome.httpError 500 none) rfl rfl

/-- C4: counterexample.  After a successful delete of link x the cached
summary entry for x is gone, but the per-link summarizing entry for x is
still present in the state used by subsequent renders: handleDeleteLink never
touches the isSummarizing object, contradicting the claim that both are
absent. -/
theorem C4_counterexample :
    jsGet (handleDeleteLink (mkState "" "" [("x", "old")] [("x", false)])
        "x" DeleteOutcome.success).1.summaries "x" = none ∧
    jsHas (handleDeleteLink (mkState "" "" [("x", "old")] [("x", false)])
        "x" DeleteOutcome.success).1.isSummarizing "x" = true := by
  exact ⟨by decide, by decide⟩

/-- C4 (amended): after a successful delete the cached summary for the link
is absent; the per-link summarizing map is left exactly as it was (so an
entry recorded for the deleted link, if any, remains). -/
theorem C4_delete_amended (s : AppState) (uid linkId : String)
    (hdb : s.db = true) (huid : s.userId = some uid) :
    jsGet (handleDeleteLink s linkId DeleteOutcome.success).1.summaries linkId = none ∧
    (handleDeleteLink s linkId DeleteOutcome.success).1.isSummarizing = s.isSummarizing := by
  have hg : ¬(s.db = false ∨ s.userId = none) := by simp [hdb, huid]
  unfold handleDeleteLink
  rw [if_neg hg]
  simp [jsGet_jsDelete_self]

/-- C4 (witness). -/
theorem C4_delete_amended_witness :
    jsGet (handleDeleteLink (mkState "" "" [("y", "old")] [("y", true)])
        "y" DeleteOutcome.success).1.summaries "y" = none ∧
    (handleDeleteLink (mkState "" "" [("y", "old")] [("y", true)])
        "y" DeleteOutcome.success).1.isSummarizing =
      (mkState "" "" [("y", "old")] [("y", true)]).isSummarizing :=
  C4_delete_amended (mkState "" "" [("y", "old")] [("y", true)]) "u1" "y" rfl rfl

/-- C5: counterexample.  Generation succeeds with text S (the update call for
S is issued), the persistence call fails with message boom, and the summary
displayed for the link afterwards is the error-prefixed text, not the
already-displayed S: the catch block of handleGetSummary also receives the
persistence error and overwrites the displayed summary, contradicting the
claim that the display is left unchanged on this path. -/
theorem C5_counterexample :
    jsGet (handleGetSummary (mkState "" "" [] []) "x"
        (FetchOutcome.ok ⟨some [⟨some ⟨some [⟨"S"⟩]⟩⟩]⟩
          (PersistOutcome.failure (some "boom")))).1.summaries "x"
      = some "Error: boom" ∧
    (handleGetSummary (mkState "" "" [] []) "x"
        (FetchOutcome.ok ⟨some [⟨some ⟨some [⟨"S"⟩]⟩⟩]⟩
          (PersistOutcome.failure (some "boom")))).2
      = [StoreCall.updateDoc ("artifacts/" ++ "app" ++ "/users/" ++ "u1" ++
          "/laterTubeLinks/" ++ "x") "S"] ∧
    ("Error: boom" : String) ≠ "S" := by
  exact ⟨by decide, by decide, by decide⟩

/-- C5 (amended): if generation succeeds with text t and the subsequent
update-summary call fails with a nonempty message em, the update call for t
was issued, but the displayed summary ends up replaced by the error-prefixed
message, so the displayed and persisted copies still diverge, only with the
display showing the error text rather than the generated summary. -/
theorem C5_persist_failure_amended (s : AppState) (uid linkId t em : String)
    (ps : List GenPart) (cs : List GenCandidate)
    (hdb : s.db = true) (huid : s.userId = some uid) (hem : em ≠ "") :
    jsGet (handleGetSummary s linkId (FetchOutcome.ok
        ⟨some (⟨some ⟨some (⟨t⟩ :: ps)⟩⟩ :: cs)⟩
        (PersistOutcome.failure (some em)))).1.summaries linkId
      = some ("Error: " ++ em) ∧
    (handleGetSummary s linkId (FetchOutcome.ok
        ⟨some (⟨some ⟨some (⟨t⟩ :: ps)⟩⟩ :: cs)⟩
        (PersistOutcome.failure (some em)))).2
      = [StoreCall.updateDoc ("artifacts/" ++ s.appId ++ "/users/" ++ uid ++
          "/laterTubeLinks/" ++ linkId) t] := by
  have hg : ¬(s.db = false ∨ s.userId = none) := by simp [hdb, huid]
  unfold handleGetSummary
  rw [if_neg hg]
  simp [summarizeFinish, summarizeStart, firstText, msgOr, hem, huid, jsGet_jsSet_self]

/-- C5 (witness). -/
theorem C5_persist_failure_amended_witness :
    jsGet (handleGetSummary (mkState "" "" [] []) "x2"
        (FetchOutcome.ok ⟨some [⟨some ⟨some [⟨"S"⟩]⟩⟩]⟩
          (PersistOutcome.failure (some "gone")))).1.summaries "x2"
      = some ("Error: " ++ "gone") ∧
    (handleGetSummary (mkState "" "" [] []) "x2"
        (FetchOutcome.ok ⟨some [⟨some ⟨some [⟨"S"⟩]⟩⟩]⟩
          (PersistOutcome.failure (some "gone")))).2
      = [StoreCall.updateDoc ("artifacts/" ++ "app" ++ "/users/" ++ "u1" ++
          "/laterTubeLinks/" ++ "x2") "S"] :=
  C5_persist_failure_amended (mkState "" "" [] []) "u1" "x2" "S" "gone" [] []
    rfl rfl (by decide)

/-- C6: the add-link operation is rejected with no store call and a surfaced
error whenever the url is blank, the title is blank, or the extractor returns
null (the error being the required-fields, not-ready or invalid-URL message,
depending on which check fires first); and when the session is ready, both
fields are non-blank and the extractor returns an id, the creation call is
issued with exactly the fields of src/app.js 181-188. -/
theorem C6_add_validation (s : AppState) (o : AddOutcome) :
    ((isBlankStr s.newLinkUrl = true ∨ isBlankStr s.newLinkTitle = true ∨
        getYouTubeVideoId (some s.newLinkUrl) = none) →
      (handleAddLink s o).2 = [] ∧
        ((handleAddLink s o).1.error = "Both URL and Title are required." ∨
         (handleAddLink s o).1.error = "Database not ready or user not authenticated." ∨
         (handleAddLink s o).1.error =
           "Invalid YouTube URL. Please enter a valid YouTube video link.")) ∧
    (∀ uid vid, s.db = true → s.userId = some uid →
      isBlankStr s.newLinkUrl = false → isBlankStr s.newLinkTitle = false →
      getYouTubeVideoId (some s.newLinkUrl) = some vid →
      (handleAddLink s o).2 = [StoreCall.addDoc
        ("artifacts/" ++ s.appId ++ "/users/" ++ uid ++ "/laterTubeLinks")
        { url := s.newLinkUrl, title := s.newLinkTitle, videoId := vid,
          addedAt := AddedAt.serverTimestamp, userId := uid, summary := none }]) := by
  constructor
  · intro hbad
    unfold handleAddLink
    by_cases h1 : (isBlankStr s.newLinkUrl || isBlankStr s.newLinkTitle) = true
    · rw [if_pos h1]
      exact ⟨rfl, Or.inl rfl⟩
    · rw [if_neg h1]
      by_cases h2 : s.db = false ∨ s.userId = none
      · rw [if_pos h2]
        exact ⟨rfl, Or.inr (Or.inl rfl)⟩
      · rw [if_neg h2]
        have h3 : getYouTubeVideoId (some s.newLinkUrl) = none := by
          rcases hbad with h | h | h
          · exact absurd (by simp [h]) h1
          · exact absurd (by simp [h]) h1
          · exact h
        rw [h3]
        exact ⟨rfl, Or.inr (Or.inr rfl)⟩
  · intro uid vid hdb huid hu ht hvid
    unfold handleAddLink
    have h1 : ¬(isBlankStr s.newLinkUrl || isBlankStr s.newLinkTitle) = true := by
      simp [hu, ht]
    have h2 : ¬(s.db = false ∨ s.userId = none) := by simp [hdb, huid]
    rw [if_neg h1, if_neg h2, hvid]
    cases o <;> simp [huid]

/-- C6 (witness): a blank url is rejected with no store call, and a valid
form on a ready session issues the creation call. -/
theorem C6_add_validation_witness :
    ((handleAddLink (mkState "" "T" [] []) AddOutcome.success).2 = [] ∧
      ((handleAddLink (mkState "" "T" [] []) AddOutcome.success).1.error =
          "Both URL and Title are required." ∨
       (handleAddLink (mkState "" "T" [] []) AddOutcome.success).1.error =
          "Database not ready or user not authenticated." ∨
       (handleAddLink (mkState "" "T" [] []) AddOutcome.success).1.error =
          "Invalid YouTube URL. Please enter a valid YouTube video link.")) ∧
    (handleAddLink (mkState "https://youtu.be/dQw4w9WgXcQ" "T" [] [])
        AddOutcome.success).2 =
      [StoreCall.addDoc ("artifacts/" ++ "app" ++ "/users/" ++ "u1" ++ "/laterTubeLinks")
        { url := "https://youtu.be/dQw4w9WgXcQ", title := "T", videoId := "dQw4w9WgXcQ",
          addedAt := AddedAt.serverTimestamp, userId := "u1", summary := none }] :=
  ⟨(C6_add_validation (mkState "" "T" [] []) AddOutcome.success).1 (Or.inl (by decide)),
   (C6_add_validation (mkState "https://youtu.be/dQw4w9WgXcQ" "T" [] [])
      AddOutcome.success).2 "u1" "dQw4w9WgXcQ" rfl rfl (by decide) (by decide) (by decide)⟩

/-- C7: for a ready session and a valid form, a successful creation call
resets both form fields to empty and closes the add form, while a failed
creation call surfaces the generic add-failure message and leaves both form
fields exactly as the user entered them. -/
theorem C7_add_form_outcome (s : AppState) (uid vid : String)
    (hdb : s.db = true) (huid : s.userId = some uid)
    (hu : isBlankStr s.newLinkUrl = false) (ht : isBlankStr s.newLinkTitle = false)
    (hvid : getYouTubeVideoId (some s.newLinkUrl) = some vid) :
    ((handleAddLink s AddOutcome.success).1.newLinkUrl = "" ∧
     (handleAddLink s AddOutcome.success).1.newLinkTitle = "" ∧
     (handleAddLink s AddOutcome.success).1.showAddForm = false) ∧
    ((handleAddLink s AddOutcome.failure).1.error =
        "Failed to add link. Please try again." ∧
     (handleAddLink s AddOutcome.failure).1.newLinkUrl = s.newLinkUrl ∧
     (handleAddLink s AddOutcome.failure).1.newLinkTitle = s.newLinkTitle) := by
  simp [handleAddLink, hu, ht, hdb, huid, hvid]

/-- C7 (witness). -/
theorem C7_add_form_outcome_witness :
    ((handleAddLink (mkState "https://youtu.be/dQw4w9WgXcQ" "T" [] [])
        AddOutcome.success).1.newLinkUrl = "" ∧
     (handleAddLink (mkState "https://youtu.be/dQw4w9WgXcQ" "T" [] [])
        AddOutcome.success).1.newLinkTitle = "" ∧
     (handleAddLink (mkState "https://youtu.be/dQw4w9WgXcQ" "T" [] [])
        AddOutcome.success).1.showAddForm = false) ∧
    ((handleAddLink (mkState "https://youtu.be/dQw4w9WgXcQ" "T" [] [])
        AddOutcome.failure).1.error = "Failed to add link. Please try again." ∧
     (handleAddLink (mkState "https://youtu.be/dQw4w9WgXcQ" "T" [] [])
        AddOutcome.failure).1.newLinkUrl =
       (mkState "https://youtu.be/dQw4w9WgXcQ" "T" [] []).newLinkUrl ∧
     (handleAddLink (mkState "https://youtu.be/dQw4w9WgXcQ" "T" [] [])
        AddOutcome.failure).1.newLinkTitle =
       (mkState "https://youtu.be/dQw4w9WgXcQ" "T" [] []).newLinkTitle) :=
  C7_add_form_outcome (mkState "https://youtu.be/dQw4w9WgXcQ" "T" [] [])
    "u1" "dQw4w9WgXcQ" rfl rfl (by decide) (by decide) (by decide)

/-- C8: on a non-ok HTTP response the summary displayed for the link is the
error-prefixed text (so it starts with the Error: marker), and the summarize
trigger shows its not-yet-successful label Get Summary, since the label logic
of src/app.js 438 treats Error:-prefixed text as not a successful summary. -/
theorem C8_http_error (s : AppState) (uid linkId : String) (status : Nat)
    (em : Option String) (hdb : s.db = true) (huid : s.userId = some uid) :
    ∃ tail,
      jsGet (handleGetSummary s linkId
          (FetchOutcome.httpError status em)).1.summaries linkId
        = some ("Error: " ++ tail) ∧
      startsWithStr ("Error: " ++ tail) "Error:" = true ∧
      summButtonLabel
        (jsGet (handleGetSummary s linkId
            (FetchOutcome.httpError status em)).1.isSummarizing linkId)
        (jsGet (handleGetSummary s linkId
            (FetchOutcome.httpError status em)).1.summaries linkId)
        = "Get Summary" := by
  have hg : ¬(s.db = false ∨ s.userId = none) := by simp [hdb, huid]
  refine ⟨"API request failed with status " ++ toString status ++ ": " ++
      msgOr em "Unknown error", ?_, startsWithStr_error _, ?_⟩
  · unfold handleGetSummary
    rw [if_neg hg]
    simp [summarizeFinish, summarizeStart, jsGet_jsSet_self]
  · unfold handleGetSummary
    rw [if_neg hg]
    simp [summarizeFinish, summarizeStart, jsGet_jsSet_self, summButtonLabel,
      startsWithStr_error]

/-- C8 (witness). -/
theorem C8_http_error_witness :
    ∃ tail,
      jsGet (handleGetSummary (mkState "" "" [] []) "L3"
          (FetchOutcome.httpError 500 none)).1.summaries "L3"
        = some ("Error: " ++ tail) ∧
      startsWithStr ("Error: " ++ tail) "Error:" = true ∧
      summButtonLabel
        (jsGet (handleGetSummary (mkState "" "" [] []) "L3"
            (FetchOutcome.httpError 500 none)).1.isSummarizing "L3")
        (jsGet (handleGetSummary (mkState "" "" [] []) "L3"
            (FetchOutcome.httpError 500 none)).1.summaries "L3")
        = "Get Summary" :=
  C8_http_error (mkState "" "" [] []) "u1" "L3" 500 none rfl rfl

/-- C9: on an ok response whose payload fails the well-formedness check of
src/app.js 252-254 (no candidates, no content, or no parts), the fixed
could-not-generate message is displayed for the link and no store call is
issued. -/
theorem C9_malformed_payload (s : AppState) (uid linkId : String) (r : GenResult)
    (p : PersistOutcome) (hdb : s.db = true) (huid : s.userId = some uid)
    (hmal : firstText r = none) :
    jsGet (handleGetSummary s linkId (FetchOutcome.ok r p)).1.summaries linkId =
      some "Could not generate summary (unexpected response)." ∧
    (handleGetSummary s linkId (FetchOutcome.ok r p)).2 = [] := by
  have hg : ¬(s.db = false ∨ s.userId = none) := by simp [hdb, huid]
  unfold handleGetSummary
  rw [if_neg hg]
  simp [summarizeFinish, summarizeStart, hmal, jsGet_jsSet_self]

/-- C9 (witness): a payload whose only candidate has no content field. -/
theorem C9_malformed_payload_witness :
    jsGet (handleGetSummary (mkState "" "" [] []) "L4"
        (FetchOutcome.ok ⟨some [⟨none⟩]⟩ PersistOutcome.success)).1.summaries "L4" =
      some "Could not generate summary (unexpected response)." ∧
    (handleGetSummary (mkState "" "" [] []) "L4"
        (FetchOutcome.ok ⟨some [⟨none⟩]⟩ PersistOutcome.success)).2 = [] :=
  C9_malformed_payload (mkState "" "" [] []) "u1" "L4" ⟨some [⟨none⟩]⟩
    PersistOutcome.success rfl rfl rfl

/-- C10: for a ready session, every store call the three handlers issue
addresses the same per-user collection the live subscription queries: the
creation call targets exactly the subscription's collection path, and the
delete and update-summary calls target a document of that collection. -/
theorem C10_collection_paths (s : AppState) (uid linkId t : String) (ao : AddOutcome)
    (ko : DeleteOutcome) (r : GenResult) (pp : PersistOutcome)
    (hdb : s.db = true) (huid : s.userId = some uid)
    (hu : isBlankStr s.newLinkUrl = false) (ht : isBlankStr s.newLinkTitle = false)
    (hvid : ∃ vid, getYouTubeVideoId (some s.newLinkUrl) = some vid)
    (hft : firstText r = some t) :
    (∃ doc, (handleAddLink s ao).2 =
      [StoreCall.addDoc (subscribePath s.appId uid) doc]) ∧
    (handleDeleteLink s linkId ko).2 =
      [StoreCall.deleteDoc (subscribePath s.appId uid ++ "/" ++ linkId)] ∧
    (handleGetSummary s linkId (FetchOutcome.ok r pp)).2 =
      [StoreCall.updateDoc (subscribePath s.appId uid ++ "/" ++ linkId) t] := by
  obtain ⟨vid, hvid⟩ := hvid
  refine ⟨?_, ?_, ?_⟩
  · refine ⟨⟨s.newLinkUrl, s.newLinkTitle, vid, AddedAt.serverTimestamp, uid, none⟩, ?_⟩
    cases ao <;> simp [handleAddLink, hu, ht, hdb, huid, hvid, subscribePath]
  · cases ko <;>
      simp [handleDeleteLink, hdb, huid, ← docPath_eq]
  · cases pp <;>
      simp [handleGetSummary, summarizeFinish, summarizeStart, hdb, huid, hft,
        ← docPath_eq]

/-- C10 (witness). -/
theorem C10_collection_paths_witness :
    (∃ doc, (handleAddLink (mkState "https://youtu.be/dQw4w9WgXcQ" "T" [] [])
        AddOutcome.success).2 =
      [StoreCall.addDoc (subscribePath "app" "u1") doc]) ∧
    (handleDeleteLink (mkState "https://youtu.be/dQw4w9WgXcQ" "T" [] [])
        "L5" DeleteOutcome.success).2 =
      [StoreCall.deleteDoc (subscribePath "app" "u1" ++ "/" ++ "L5")] ∧
    (handleGetSummary (mkState "https://youtu.be/dQw4w9WgXcQ" "T" [] []) "L5"
        (FetchOutcome.ok ⟨some [⟨some ⟨some [⟨"S"⟩]⟩⟩]⟩ PersistOutcome.success)).2 =
      [StoreCall.updateDoc (subscribePath "app" "u1" ++ "/" ++ "L5") "S"] :=
  C10_collection_paths (mkState "https://youtu.be/dQw4w9WgXcQ" "T" [] [])
    "u1" "L5" "S" AddOutcome.success DeleteOutcome.success
    ⟨some [⟨some ⟨some [⟨"S"⟩]⟩⟩]⟩ PersistOutcome.success
    rfl rfl (by decide) (by decide) ⟨"dQw4w9WgXcQ", by decide⟩ rfl
